import Mathlib

/-
Shallow embedding of the cuRNN tensor and layer core
(src/unnamed/part_000 = tensor.cuh, src/src/layer/layer.hpp).

The C `uint` fields are modelled as `Nat` with explicit reduction
modulo 2 ^ 32 wherever the source performs unsigned arithmetic that
can wrap.  `std::vector<dType>` is modelled as `List α`; an
out-of-bounds vector access has no defined behaviour in the source,
so the model threads an explicit `junk` value for the result of such
a read and drops such a write (`List.set` out of range is the
identity), reflecting that the source offers no guarantee there.
Diagnostics written to `std::cerr` are modelled by counting them.
-/

namespace CuRNN

/-- Modulus of the 32-bit unsigned `uint` type used by the source. -/
def uintMod : Nat := 2 ^ 32

/-- `std::numeric_limits<uint>::max()`, the value the source uses as its
internal out-of-range marker for subscript offsets. -/
def uintMax : Nat := 2 ^ 32 - 1

/-- `curnn::tensor4<dType>`: four `uint` extents and a flat
`std::vector<dType>` backing store. -/
structure Tensor4 (α : Type) where
  w : Nat
  x : Nat
  y : Nat
  z : Nat
  data : List α
deriving DecidableEq

/-- The zero-filling constructor `tensor4(_w,_x,_y,_z)`:
`data( _w * _x * y * _z, 0 )` allocates the `uint` product (reduced
modulo 2 ^ 32, as the product is computed in `uint` arithmetic) of
zero elements.  Arguments are `uint` values. -/
def tensor4Mk (α : Type) [Zero α] (w x y z : Nat) : Tensor4 α :=
  ⟨w, x, y, z, List.replicate (w * x * y * z % uintMod) (0 : α)⟩

/-- The default constructor `tensor4()`: all extents zero, and the
default-constructed vector is empty. -/
def tensor4Default (α : Type) : Tensor4 α :=
  ⟨0, 0, 0, 0, []⟩

/-- `tensor4::size()`, which returns `data.size()`. -/
def Tensor4.size (t : Tensor4 α) : Nat :=
  t.data.length

/-- `std::vector::resize(n, v)`: keeps the first `min n (length l)`
elements and fills any growth with `v`. -/
def vecResize (l : List α) (n : Nat) (v : α) : List α :=
  l.take n ++ List.replicate (n - l.length) v

/-- `static_cast<uint>` applied to a C `int` value: reduction modulo
2 ^ 32 (two's-complement conversion). -/
def intToUint (i : Int) : Nat :=
  (i % (uintMod : Int)).toNat

/-- `tensor4::reshape(w_new, x_new, y_new, z_new)`: each `int` argument
is either `-1` ("keep the current extent") or is cast to `uint`; the
store is then `resize`d to the `uint` product of the new extents with
zero fill. -/
def Tensor4.reshape [Zero α] (t : Tensor4 α) (wn xn yn zn : Int) : Tensor4 α :=
  let w := if wn ≠ -1 then intToUint wn else t.w
  let x := if xn ≠ -1 then intToUint xn else t.x
  let y := if yn ≠ -1 then intToUint yn else t.y
  let z := if zn ≠ -1 then intToUint zn else t.z
  ⟨w, x, y, z, vecResize t.data (w * x * y * z % uintMod) (0 : α)⟩

/-- `tensor4::operator()(w_new, x_new, y_new, z_new)`: sets the four
extents and then executes `data( w * x * y * z,  0 );`.  That statement
applies the `std::vector` member `data` as a function, which is
ill-formed C++ (`std::vector` has no call operator); the evident intent,
matching the zero-filling constructor it mirrors, is to replace the
store with a fresh zero-filled vector of the `uint` product, and the
model uses that intent.  The overload returns `void`. -/
def Tensor4.parenOp (t : Tensor4 α) [Zero α] (wn xn yn zn : Nat) : Tensor4 α :=
  ⟨wn, xn, yn, zn, List.replicate (wn * xn * yn * zn % uintMod) (0 : α)⟩

/-- The per-dimension extent the bound checker compares the index
against: `w` for dimension 0, `x` for 1, `y` for 2, `z` for 3. -/
def extentOf (t : Tensor4 α) (dim : Int) : Nat :=
  if dim = 0 then t.w
  else if dim = 1 then t.x
  else if dim = 2 then t.y
  else if dim = 3 then t.z
  else 0

/-- The additive offset base of each dimension's window: `0` for
dimension 0, `w` for 1, `w + x` for 2, `w + x + y` for 3. -/
def baseOf (t : Tensor4 α) (dim : Int) : Nat :=
  if dim = 0 then 0
  else if dim = 1 then t.w
  else if dim = 2 then t.w + t.x
  else if dim = 3 then t.w + t.x + t.y
  else 0

/-- A dimension selector the switch in `tensorBoundChecker::operator[]`
accepts (its `default` branch is the error path). -/
def validDim (dim : Int) : Prop :=
  dim = 0 ∨ dim = 1 ∨ dim = 2 ∨ dim = 3

instance (dim : Int) : Decidable (validDim dim) := by
  unfold validDim; infer_instance

/-- The in-range test `index >= 0 && index < tensor->e` of the mutable
and const subscripts, for the extent of the selected dimension. -/
def inRange (t : Tensor4 α) (dim index : Int) : Prop :=
  0 ≤ index ∧ index < (extentOf t dim : Int)

instance (t : Tensor4 α) (dim index : Int) : Decidable (inRange t dim index) := by
  unfold inRange; infer_instance

/-- The `uint offset` computed by the mutable
`tensorBoundChecker::operator[]`: `none` models the `default` branch of
the switch (invalid dimension); an in-range index gives the additive
offset in `uint` arithmetic (modulo 2 ^ 32); an out-of-range index
gives `std::numeric_limits<uint>::max()` as a marker. -/
def mutOffset (t : Tensor4 α) (dim index : Int) : Option Nat :=
  if dim = 0 then
    some (if 0 ≤ index ∧ index < (t.w : Int) then index.toNat % uintMod else uintMax)
  else if dim = 1 then
    some (if 0 ≤ index ∧ index < (t.x : Int) then (t.w + index.toNat) % uintMod else uintMax)
  else if dim = 2 then
    some (if 0 ≤ index ∧ index < (t.y : Int) then (t.w + t.x + index.toNat) % uintMod else uintMax)
  else if dim = 3 then
    some (if 0 ≤ index ∧ index < (t.z : Int) then (t.w + t.x + t.y + index.toNat) % uintMod else uintMax)
  else
    none

/-- The observable outcome of the mutable
`tensorBoundChecker::operator[]`: the position in `data` whose
reference is returned, paired with the number of diagnostics printed to
`std::cerr`.  The `default` branch and a marked offset both print one
diagnostic and return `tensor->data[ 0 ]`. -/
def mutAccess (t : Tensor4 α) (dim index : Int) : Nat × Nat :=
  match mutOffset t dim index with
  | none => (0, 1)
  | some off => if off = uintMax then (0, 1) else (off, 0)

/-- A write through the mutable subscript: the reference produced by
`mutAccess` is assigned `v`.  A write whose position is outside the
store has no defined behaviour in the source; the model drops it
(`List.set` out of range is the identity). -/
def writeMut (t : Tensor4 α) (dim index : Int) (v : α) : Tensor4 α :=
  { t with data := t.data.set (mutAccess t dim index).1 v }

/-- The const `tensorBoundChecker::operator[]`: returns the fetched
value paired with the number of diagnostics printed.  An in-range index
reads `data` at the additive offset (`junk` models the indeterminate
result of a read outside the store, which the source leaves
undefined); an out-of-range index yields
`std::numeric_limits<dType>::max()`; after the switch, a fetched value
equal to that maximum triggers the out-of-range diagnostic.  The
`default` branch prints a diagnostic and returns the maximum. -/
def constAccess [DecidableEq α] (t : Tensor4 α) (maxVal junk : α) (dim index : Int) : α × Nat :=
  if dim = 0 then
    let output := if 0 ≤ index ∧ index < (t.w : Int) then
      t.data.getD index.toNat junk else maxVal
    (output, if output = maxVal then 1 else 0)
  else if dim = 1 then
    let output := if 0 ≤ index ∧ index < (t.x : Int) then
      t.data.getD ((t.w + index.toNat) % uintMod) junk else maxVal
    (output, if output = maxVal then 1 else 0)
  else if dim = 2 then
    let output := if 0 ≤ index ∧ index < (t.y : Int) then
      t.data.getD ((t.w + t.x + index.toNat) % uintMod) junk else maxVal
    (output, if output = maxVal then 1 else 0)
  else if dim = 3 then
    let output := if 0 ≤ index ∧ index < (t.z : Int) then
      t.data.getD ((t.w + t.x + t.y + index.toNat) % uintMod) junk else maxVal
    (output, if output = maxVal then 1 else 0)
  else
    (maxVal, 1)

/-- `curnn::layer<dType, _nodes, _inputs, _depth, typePolicy>`:
`numNodes`, `numInputs`, `depth` and `outputs` are the layer's own
members.  Modelled from the spec: the storage policy base class, which
is not among these sources, supplies a `tensor4<dType>` member named
`wba` holding the packed weights, biases and activations; it appears
here as a plain field. -/
structure Layer (α : Type) where
  numNodes : Nat
  numInputs : Nat
  depth : Nat
  outputs : List α
  wba : Tensor4 α

/-- The `layer()` constructor: fixes the three sizes and
zero-initializes `outputs( _nodes, 0 )`.  Modelled from the spec: the
policy default-constructs its own `wba` tensor, whose extents the
policy chooses; the policy is not among these sources, so the
initial tensor is taken as a parameter. -/
def layerMk (α : Type) [Zero α] (nodes inputs depth : Nat) (wba0 : Tensor4 α) : Layer α :=
  ⟨nodes, inputs, depth, List.replicate nodes (0 : α), wba0⟩

/-- `layer::initializeWeights(min, max)`: the triple loop over
`(d, i, n)`.  Its body `this->wba( n, i, d, 0 ) = curnn::math::rand( min, max );`
calls `tensor4::operator()` — the reshape overload, which returns
`void` — and assigns the random value to that `void` result, which is
ill-formed C++; the executable content is the `operator()` effect
(`Tensor4.parenOp`), and the random value has no well-formed
destination, so the collaborator `rand` does not appear.  The `mn`/`mx`
bounds are therefore unused, exactly as in the source's effect. -/
def Layer.initializeWeights [Zero α] (l : Layer α) (mn mx : α) : Layer α :=
  (List.range l.depth).foldl (fun a d =>
    (List.range a.numInputs).foldl (fun b i =>
      (List.range b.numNodes).foldl (fun c n =>
        { c with wba := c.wba.parenOp n i d 0 }) b) a) l

end CuRNN

namespace CuRNN

/- ===== helper lemmas ===== -/

lemma uintMax_lt_uintMod : uintMax < uintMod := by
  norm_num [uintMax, uintMod]

lemma vecResize_length (l : List α) (n : Nat) (v : α) :
    (vecResize l n v).length = n := by
  simp [vecResize]
  omega

lemma vecResize_getD_keep (l : List α) (n i : Nat) (v j : α)
    (h1 : i < l.length) (h2 : i < n) :
    (vecResize l n v).getD i j = l.getD i j := by
  have htl : i < (l.take n).length := by simp; omega
  rw [vecResize, List.getD_append _ _ _ _ htl, List.getD_eq_getElem _ _ htl,
    List.getElem_take, List.getD_eq_getElem _ _ h1]

lemma vecResize_getD_new (l : List α) (n i : Nat) (v j : α)
    (h1 : l.length ≤ i) (h2 : i < n) :
    (vecResize l n v).getD i j = v := by
  have hlen : (l.take n).length = l.length := by simp; omega
  rw [vecResize, List.getD_append_right _ _ _ _ (by omega)]
  rw [hlen]
  have hr : i - l.length < (List.replicate (n - l.length) v).length := by simp; omega
  rw [List.getD_eq_getElem _ _ hr, List.getElem_replicate]

lemma getD_set_self (l : List α) (i : Nat) (a j : α) (h : i < l.length) :
    (l.set i a).getD i j = a := by
  rw [List.getD_eq_getElem _ _ (by simpa using h), List.getElem_set_self]

lemma getD_of_getElem? (l : List α) (i : Nat) (a j : α) (h : l[i]? = some a) :
    l.getD i j = a := by
  rw [List.getD_eq_getElem?_getD, h]
  rfl

lemma extentOf_dim0 (t : Tensor4 α) : extentOf t 0 = t.w := rfl

lemma extentOf_dim1 (t : Tensor4 α) : extentOf t 1 = t.x := rfl

lemma extentOf_dim2 (t : Tensor4 α) : extentOf t 2 = t.y := rfl

lemma extentOf_dim3 (t : Tensor4 α) : extentOf t 3 = t.z := rfl

lemma baseOf_dim0 (t : Tensor4 α) : baseOf t 0 = 0 := rfl

lemma baseOf_dim1 (t : Tensor4 α) : baseOf t 1 = t.w := rfl

lemma baseOf_dim2 (t : Tensor4 α) : baseOf t 2 = t.w + t.x := rfl

lemma baseOf_dim3 (t : Tensor4 α) : baseOf t 3 = t.w + t.x + t.y := rfl

lemma mutOffset_dim0 (t : Tensor4 α) (index : Int) :
    mutOffset t 0 index =
      some (if 0 ≤ index ∧ index < (t.w : Int) then index.toNat % uintMod else uintMax) := rfl

lemma mutOffset_dim1 (t : Tensor4 α) (index : Int) :
    mutOffset t 1 index =
      some (if 0 ≤ index ∧ index < (t.x : Int) then (t.w + index.toNat) % uintMod else uintMax) := rfl

lemma mutOffset_dim2 (t : Tensor4 α) (index : Int) :
    mutOffset t 2 index =
      some (if 0 ≤ index ∧ index < (t.y : Int) then (t.w + t.x + index.toNat) % uintMod else uintMax) := rfl

lemma mutOffset_dim3 (t : Tensor4 α) (index : Int) :
    mutOffset t 3 index =
      some (if 0 ≤ index ∧ index < (t.z : Int) then (t.w + t.x + t.y + index.toNat) % uintMod else uintMax) := rfl

lemma constAccess_dim0 [DecidableEq α] (t : Tensor4 α) (maxVal junk : α) (index : Int) :
    constAccess t maxVal junk 0 index =
      ((if 0 ≤ index ∧ index < (t.w : Int) then t.data.getD index.toNat junk else maxVal),
        if (if 0 ≤ index ∧ index < (t.w : Int) then t.data.getD index.toNat junk else maxVal) = maxVal
          then 1 else 0) := rfl

lemma constAccess_dim1 [DecidableEq α] (t : Tensor4 α) (maxVal junk : α) (index : Int) :
    constAccess t maxVal junk 1 index =
      ((if 0 ≤ index ∧ index < (t.x : Int) then t.data.getD ((t.w + index.toNat) % uintMod) junk else maxVal),
        if (if 0 ≤ index ∧ index < (t.x : Int) then t.data.getD ((t.w + index.toNat) % uintMod) junk else maxVal) = maxVal
          then 1 else 0) := rfl

lemma constAccess_dim2 [DecidableEq α] (t : Tensor4 α) (maxVal junk : α) (index : Int) :
    constAccess t maxVal junk 2 index =
      ((if 0 ≤ index ∧ index < (t.y : Int) then t.data.getD ((t.w + t.x + index.toNat) % uintMod) junk else maxVal),
        if (if 0 ≤ index ∧ index < (t.y : Int) then t.data.getD ((t.w + t.x + index.toNat) % uintMod) junk else maxVal) = maxVal
          then 1 else 0) := rfl

lemma constAccess_dim3 [DecidableEq α] (t : Tensor4 α) (maxVal junk : α) (index : Int) :
    constAccess t maxVal junk 3 index =
      ((if 0 ≤ index ∧ index < (t.z : Int) then t.data.getD ((t.w + t.x + t.y + index.toNat) % uintMod) junk else maxVal),
        if (if 0 ≤ index ∧ index < (t.z : Int) then t.data.getD ((t.w + t.x + t.y + index.toNat) % uintMod) junk else maxVal) = maxVal
          then 1 else 0) := rfl

lemma mutOffset_valid (t : Tensor4 α) (dim index : Int)
    (hd : validDim dim) (hin : inRange t dim index) :
    mutOffset t dim index = some ((baseOf t dim + index.toNat) % uintMod) := by
  rcases hd with rfl | rfl | rfl | rfl
  · simp only [inRange, extentOf_dim0] at hin
    rw [mutOffset_dim0, if_pos hin, baseOf_dim0, Nat.zero_add]
  · simp only [inRange, extentOf_dim1] at hin
    rw [mutOffset_dim1, if_pos hin, baseOf_dim1]
  · simp only [inRange, extentOf_dim2] at hin
    rw [mutOffset_dim2, if_pos hin, baseOf_dim2]
  · simp only [inRange, extentOf_dim3] at hin
    rw [mutOffset_dim3, if_pos hin, baseOf_dim3]

lemma mutOffset_oor (t : Tensor4 α) (dim index : Int)
    (hd : validDim dim) (hin : ¬ inRange t dim index) :
    mutOffset t dim index = some uintMax := by
  rcases hd with rfl | rfl | rfl | rfl
  · simp only [inRange, extentOf_dim0] at hin
    rw [mutOffset_dim0, if_neg hin]
  · simp only [inRange, extentOf_dim1] at hin
    rw [mutOffset_dim1, if_neg hin]
  · simp only [inRange, extentOf_dim2] at hin
    rw [mutOffset_dim2, if_neg hin]
  · simp only [inRange, extentOf_dim3] at hin
    rw [mutOffset_dim3, if_neg hin]

lemma mutOffset_invalidDim (t : Tensor4 α) (dim index : Int)
    (hd : ¬ validDim dim) :
    mutOffset t dim index = none := by
  simp only [validDim, not_or] at hd
  obtain ⟨d0, d1, d2, d3⟩ := hd
  simp only [mutOffset, if_neg d0, if_neg d1, if_neg d2, if_neg d3]

lemma mutAccess_valid (t : Tensor4 α) (dim index : Int)
    (hd : validDim dim) (hin : inRange t dim index)
    (hoff : baseOf t dim + index.toNat < uintMax) :
    mutAccess t dim index = (baseOf t dim + index.toNat, 0) := by
  have hmod : (baseOf t dim + index.toNat) % uintMod = baseOf t dim + index.toNat :=
    Nat.mod_eq_of_lt (lt_trans hoff uintMax_lt_uintMod)
  rw [mutAccess, mutOffset_valid t dim index hd hin, hmod]
  simp only [if_neg (Nat.ne_of_lt hoff)]

lemma mutAccess_oor (t : Tensor4 α) (dim index : Int)
    (hd : validDim dim) (hin : ¬ inRange t dim index) :
    mutAccess t dim index = (0, 1) := by
  rw [mutAccess, mutOffset_oor t dim index hd hin]
  simp

lemma mutAccess_invalidDim (t : Tensor4 α) (dim index : Int)
    (hd : ¬ validDim dim) :
    mutAccess t dim index = (0, 1) := by
  rw [mutAccess, mutOffset_invalidDim t dim index hd]

lemma mutAccess_marker (t : Tensor4 α) (dim index : Int)
    (hd : validDim dim) (hin : inRange t dim index)
    (hcol : (baseOf t dim + index.toNat) % uintMod = uintMax) :
    mutAccess t dim index = (0, 1) := by
  rw [mutAccess, mutOffset_valid t dim index hd hin, hcol]
  simp

lemma constAccess_valid [DecidableEq α] (t : Tensor4 α) (maxVal junk : α) (dim index : Int)
    (hd : validDim dim) (hin : inRange t dim index)
    (hM : baseOf t dim + index.toNat < uintMod) :
    constAccess t maxVal junk dim index =
      (t.data.getD (baseOf t dim + index.toNat) junk,
        if t.data.getD (baseOf t dim + index.toNat) junk = maxVal then 1 else 0) := by
  have hmod : (baseOf t dim + index.toNat) % uintMod = baseOf t dim + index.toNat :=
    Nat.mod_eq_of_lt hM
  rcases hd with rfl | rfl | rfl | rfl
  · simp only [inRange, extentOf_dim0] at hin
    rw [baseOf_dim0, Nat.zero_add] at hmod ⊢
    rw [constAccess_dim0]
    simp only [if_pos hin]
  · simp only [inRange, extentOf_dim1] at hin
    rw [baseOf_dim1] at hmod ⊢
    rw [constAccess_dim1]
    simp only [if_pos hin, hmod]
  · simp only [inRange, extentOf_dim2] at hin
    rw [baseOf_dim2] at hmod ⊢
    rw [constAccess_dim2]
    simp only [if_pos hin, hmod]
  · simp only [inRange, extentOf_dim3] at hin
    rw [baseOf_dim3] at hmod ⊢
    rw [constAccess_dim3]
    simp only [if_pos hin, hmod]

lemma constAccess_oor [DecidableEq α] (t : Tensor4 α) (maxVal junk : α) (dim index : Int)
    (hd : validDim dim) (hin : ¬ inRange t dim index) :
    constAccess t maxVal junk dim index = (maxVal, 1) := by
  rcases hd with rfl | rfl | rfl | rfl
  · simp only [inRange, extentOf_dim0] at hin
    rw [constAccess_dim0]
    simp [if_neg hin]
  · simp only [inRange, extentOf_dim1] at hin
    rw [constAccess_dim1]
    simp [if_neg hin]
  · simp only [inRange, extentOf_dim2] at hin
    rw [constAccess_dim2]
    simp [if_neg hin]
  · simp only [inRange, extentOf_dim3] at hin
    rw [constAccess_dim3]
    simp [if_neg hin]

lemma constAccess_invalidDim [DecidableEq α] (t : Tensor4 α) (maxVal junk : α) (dim index : Int)
    (hd : ¬ validDim dim) :
    constAccess t maxVal junk dim index = (maxVal, 1) := by
  simp only [validDim, not_or] at hd
  obtain ⟨d0, d1, d2, d3⟩ := hd
  simp only [constAccess, if_neg d0, if_neg d1, if_neg d2, if_neg d3]

/- ===== claim theorems (draft) ===== -/

/-- Claim C2 (amended): for every tensor with extents (w, x, y, z) and every
in-range index whose additive offset stays below 2 ^ 32 - 1 (so it neither
wraps in uint arithmetic nor collides with the out-of-range marker),
subscripting dimension 0 at index accesses data[index], dimension 1
data[w + index], dimension 2 data[w + x + index] and dimension 3
data[w + x + y + index]: the writable accessor returns a reference to that
position without a diagnostic, and the read-only accessor fetches the value
stored at that position. -/
theorem subscript_additive_offsets [DecidableEq α] (t : Tensor4 α) (dim index : Int)
    (hd : validDim dim) (hin : inRange t dim index)
    (hoff : baseOf t dim + index.toNat < uintMax) :
    mutAccess t dim index = (baseOf t dim + index.toNat, 0) ∧
    ∀ maxVal junk : α,
      (constAccess t maxVal junk dim index).1 =
        t.data.getD (baseOf t dim + index.toNat) junk := by
  refine ⟨mutAccess_valid t dim index hd hin hoff, fun maxVal junk => ?_⟩
  rw [constAccess_valid t maxVal junk dim index hd hin (lt_trans hoff uintMax_lt_uintMod)]

theorem subscript_additive_offsets_wit :
    validDim 1 ∧ inRange (Tensor4.mk 2 2 1 1 ([10, 20, 30, 40] : List ℤ)) 1 1 ∧
    mutAccess (Tensor4.mk 2 2 1 1 ([10, 20, 30, 40] : List ℤ)) 1 1 = (3, 0) ∧
    (constAccess (Tensor4.mk 2 2 1 1 ([10, 20, 30, 40] : List ℤ)) 99 0 1 1).1 = 40 := by
  have h := subscript_additive_offsets (Tensor4.mk 2 2 1 1 ([10, 20, 30, 40] : List ℤ)) 1 1
    (by decide) (by decide) (by decide)
  exact ⟨by decide, by decide, h.1.trans (by decide), (h.2 99 0).trans (by decide)⟩

/-- Claim C2 as literally stated is false: on a tensor with w = 2 ^ 32 - 1 the
writable accessor at dimension 1, index 0 computes the uint offset
2 ^ 32 - 1, which collides with the internal out-of-range marker, so the
access addresses data[0] (with a diagnostic) instead of data[w + 0]. -/
theorem subscript_additive_offsets_cex :
    (mutAccess (Tensor4.mk (2 ^ 32 - 1) 1 1 1 ([] : List ℤ)) 1 0).1 ≠ 2 ^ 32 - 1 + (0 : Int).toNat := by
  decide

/-- Claim C5: an access with an out-of-range index for a valid dimension, or with a
dimension selector outside 0..3, emits exactly one diagnostic and yields the
documented sentinel: the first element (position 0) for the writable
accessor and the maximum representable value for the read-only accessor. -/
theorem bad_access_sentinel [DecidableEq α] (t : Tensor4 α) (maxVal junk : α) (dim index : Int)
    (hbad : ¬ validDim dim ∨ (validDim dim ∧ ¬ inRange t dim index)) :
    mutAccess t dim index = (0, 1) ∧ constAccess t maxVal junk dim index = (maxVal, 1) := by
  rcases hbad with hd | ⟨hd, hin⟩
  · exact ⟨mutAccess_invalidDim t dim index hd, constAccess_invalidDim t maxVal junk dim index hd⟩
  · exact ⟨mutAccess_oor t dim index hd hin, constAccess_oor t maxVal junk dim index hd hin⟩

theorem bad_access_sentinel_wit :
    (¬ validDim 0 ∨ (validDim 0 ∧ ¬ inRange (tensor4Mk ℤ 3 2 1 1) 0 5)) ∧
    mutAccess (tensor4Mk ℤ 3 2 1 1) 0 5 = (0, 1) ∧
    constAccess (tensor4Mk ℤ 3 2 1 1) 2147483647 0 0 5 = (2147483647, 1) := by
  have h := bad_access_sentinel (tensor4Mk ℤ 3 2 1 1) (2147483647 : ℤ) 0 0 5
    (Or.inr ⟨by decide, by decide⟩)
  exact ⟨Or.inr ⟨by decide, by decide⟩, h.1, h.2⟩

/-- Claim C9: for any bad writable access (out-of-range index or invalid dimension
selector) the error branch falls back to element 0 of the backing store, and
that fallback position is itself a valid position of the store if and only
if the store is non-empty — on a tensor whose store is empty (for instance
the default-constructed tensor, all extents zero) the fallback indexes
element 0 of an empty vector. -/
theorem empty_store_fallback (t : Tensor4 α) (dim index : Int)
    (hbad : ¬ validDim dim ∨ (validDim dim ∧ ¬ inRange t dim index)) :
    (mutAccess t dim index).1 = 0 ∧ (mutAccess t dim index).2 = 1 ∧
    ((mutAccess t dim index).1 < t.data.length ↔ t.data ≠ []) := by
  have h : mutAccess t dim index = (0, 1) := by
    rcases hbad with hd | ⟨hd, hin⟩
    · exact mutAccess_invalidDim t dim index hd
    · exact mutAccess_oor t dim index hd hin
  rw [h]
  exact ⟨rfl, rfl, by simpa using List.length_pos⟩

theorem empty_store_fallback_wit :
    (¬ validDim 0 ∨ (validDim 0 ∧ ¬ inRange (tensor4Default ℤ) 0 0)) ∧
    (tensor4Default ℤ).data = [] ∧
    (mutAccess (tensor4Default ℤ) 0 0).1 = 0 ∧
    ¬ ((mutAccess (tensor4Default ℤ) 0 0).1 < (tensor4Default ℤ).data.length) := by
  have h := empty_store_fallback (tensor4Default ℤ) 0 0 (Or.inr ⟨by decide, by decide⟩)
  refine ⟨Or.inr ⟨by decide, by decide⟩, rfl, h.1, ?_⟩
  intro hc
  exact (h.2.2.mp hc) rfl

/-- Claim C10: a writable access at a valid (dimension, index) whose additive uint
offset equals 2 ^ 32 - 1 is misclassified as out of range, because that
value doubles as the internal out-of-range marker: one diagnostic is
emitted and the reference returned is to data[0], not to the addressed
offset. -/
theorem offset_marker_collision (t : Tensor4 α) (dim index : Int)
    (hd : validDim dim) (hin : inRange t dim index)
    (hcol : (baseOf t dim + index.toNat) % uintMod = uintMax) :
    mutAccess t dim index = (0, 1) :=
  mutAccess_marker t dim index hd hin hcol

theorem offset_marker_collision_wit :
    validDim 1 ∧ inRange (Tensor4.mk (2 ^ 32 - 1) 1 1 1 ([] : List ℤ)) 1 0 ∧
    (baseOf (Tensor4.mk (2 ^ 32 - 1) 1 1 1 ([] : List ℤ)) 1 + (0 : Int).toNat) % uintMod = uintMax ∧
    mutAccess (Tensor4.mk (2 ^ 32 - 1) 1 1 1 ([] : List ℤ)) 1 0 = (0, 1) :=
  ⟨by decide, by decide, by decide,
    offset_marker_collision (Tensor4.mk (2 ^ 32 - 1) 1 1 1 ([] : List ℤ)) 1 0
      (by decide) (by decide) (by decide)⟩

/-- Claim C7: a read-only access at a valid (dimension, index) whose stored
element equals the maximum representable value returns (value, one
diagnostic) identical to the outcome of an out-of-range read-only access on
the same dimension, so a caller cannot distinguish a legitimately stored
maximum from the error sentinel. -/
theorem stored_max_indistinguishable [DecidableEq α] (t : Tensor4 α) (maxVal junk : α)
    (dim index index2 : Int)
    (hd : validDim dim) (hin : inRange t dim index)
    (hM : baseOf t dim + index.toNat < uintMod)
    (hval : t.data[baseOf t dim + index.toNat]? = some maxVal)
    (hbad : ¬ inRange t dim index2) :
    constAccess t maxVal junk dim index = (maxVal, 1) ∧
    constAccess t maxVal junk dim index = constAccess t maxVal junk dim index2 := by
  have hv : t.data.getD (baseOf t dim + index.toNat) junk = maxVal :=
    getD_of_getElem? _ _ _ _ hval
  have h1 : constAccess t maxVal junk dim index = (maxVal, 1) := by
    rw [constAccess_valid t maxVal junk dim index hd hin hM, hv, if_pos rfl]
  exact ⟨h1, h1.trans (constAccess_oor t maxVal junk dim index2 hd hbad).symm⟩

theorem stored_max_indistinguishable_wit :
    validDim 0 ∧ inRange (Tensor4.mk 2 1 1 1 ([3, 7] : List ℤ)) 0 1 ∧
    (Tensor4.mk 2 1 1 1 ([3, 7] : List ℤ)).data[baseOf (Tensor4.mk 2 1 1 1 ([3, 7] : List ℤ)) 0 + (1 : Int).toNat]? = some 7 ∧
    ¬ inRange (Tensor4.mk 2 1 1 1 ([3, 7] : List ℤ)) 0 5 ∧
    constAccess (Tensor4.mk 2 1 1 1 ([3, 7] : List ℤ)) 7 0 0 1 = (7, 1) ∧
    constAccess (Tensor4.mk 2 1 1 1 ([3, 7] : List ℤ)) 7 0 0 1 =
      constAccess (Tensor4.mk 2 1 1 1 ([3, 7] : List ℤ)) 7 0 0 5 := by
  have h := stored_max_indistinguishable (Tensor4.mk 2 1 1 1 ([3, 7] : List ℤ)) 7 0 0 1 5
    (by decide) (by decide) (by decide) (by decide) (by decide)
  exact ⟨by decide, by decide, by decide, by decide, h.1, h.2⟩

/-- Claim C4 (amended): for every tensor, dimension 0..3 and index within that
dimension's extent, provided the addressed position (additive offset) lies
below the uint marker and inside the backing store, writing a value through
the writable accessor at (dim, index) and then reading at (dim, index)
through the read-only accessor returns exactly the written value. -/
theorem write_read_roundtrip [DecidableEq α] (t : Tensor4 α) (dim index : Int)
    (v maxVal junk : α)
    (hd : validDim dim) (hin : inRange t dim index)
    (hoff : baseOf t dim + index.toNat < uintMax)
    (hlen : baseOf t dim + index.toNat < t.data.length) :
    (constAccess (writeMut t dim index v) maxVal junk dim index).1 = v := by
  have hw : writeMut t dim index v =
      { t with data := t.data.set (baseOf t dim + index.toNat) v } := by
    rw [writeMut, mutAccess_valid t dim index hd hin hoff]
  have hbase : baseOf { t with data := t.data.set (baseOf t dim + index.toNat) v } dim = baseOf t dim := rfl
  have hin2 : inRange { t with data := t.data.set (baseOf t dim + index.toNat) v } dim index := hin
  rw [hw, constAccess_valid _ maxVal junk dim index hd hin2
    (by rw [hbase]; exact lt_trans hoff uintMax_lt_uintMod)]
  simp only [hbase]
  exact getD_set_self _ _ _ _ hlen

theorem write_read_roundtrip_wit :
    (tensor4Mk ℤ 3 2 1 1).size = 6 ∧
    (constAccess (writeMut (tensor4Mk ℤ 3 2 1 1) 0 2 5) 2147483647 0 0 2).1 = 5 :=
  ⟨by decide,
    write_read_roundtrip (tensor4Mk ℤ 3 2 1 1) 0 2 5 2147483647 0
      (by decide) (by decide) (by decide) (by decide)⟩

/-- Claim C4 as literally stated is false: on the tensor with extents (3, 2, 1, 1)
the store has 6 elements, but dimension 3 at index 0 — an index within that
dimension's extent — addresses position w + x + y + 0 = 6, outside the
store; the write there is an out-of-bounds vector access with no guarantee
(the model drops it and the read yields the indeterminate value, here 0),
so reading back does not return the written value 5. -/
theorem write_read_roundtrip_cex :
    (constAccess (writeMut (tensor4Mk ℤ 3 2 1 1) 3 0 5) 2147483647 0 3 0).1 ≠ 5 := by
  decide

/-- Claim C3 (amended): the backing store length equals the product of the four
extents reduced modulo 2 ^ 32 — the product is computed in 32-bit unsigned
arithmetic — after zero-extent or explicit construction, and this relation
between size() and the current extents is reestablished by reshape and by
the operator() resizer (modelled by its evident intent, its written body
being ill-formed). -/
theorem tensor4_size_mod_invariant (α : Type) [Zero α] :
    (∀ w x y z : Nat, (tensor4Mk α w x y z).size = w * x * y * z % uintMod) ∧
    (tensor4Default α).size = 0 ∧
    (∀ (t : Tensor4 α) (wn xn yn zn : Int),
      (t.reshape wn xn yn zn).size =
        (t.reshape wn xn yn zn).w * (t.reshape wn xn yn zn).x *
          (t.reshape wn xn yn zn).y * (t.reshape wn xn yn zn).z % uintMod) ∧
    (∀ (t : Tensor4 α) (wn xn yn zn : Nat),
      (t.parenOp wn xn yn zn).size =
        (t.parenOp wn xn yn zn).w * (t.parenOp wn xn yn zn).x *
          (t.parenOp wn xn yn zn).y * (t.parenOp wn xn yn zn).z % uintMod) := by
  refine ⟨fun w x y z => ?_, rfl, fun t wn xn yn zn => ?_, fun t wn xn yn zn => ?_⟩
  · simp [tensor4Mk, Tensor4.size]
  · simp [Tensor4.reshape, Tensor4.size, vecResize_length]
  · simp [Tensor4.parenOp, Tensor4.size]

/-- Claim C3 as literally stated is false: constructing a tensor with extents
(65536, 65536, 1, 1) computes the element count 2 ^ 32 in uint arithmetic,
which wraps to 0, so the backing store is empty rather than of length
w * x * y * z. -/
theorem tensor4_size_mod_invariant_cex :
    (tensor4Mk ℤ 65536 65536 1 1).size ≠ 65536 * 65536 * 1 * 1 := by
  decide

/-- Claim C6 (amended): reshape with the keep-current sentinel -1 on an axis keeps
that axis's previous extent while each axis given a non-negative value takes
it; the backing store is resized to the product of the new extents computed
in 32-bit unsigned arithmetic (modulo 2 ^ 32); elements at positions present
in both the old and the new store are preserved positionally, and every
newly introduced slot holds the element type's zero. -/
lemma reshape_axis (a : Int) (b : Nat)
    (h : a = -1 ∨ (0 ≤ a ∧ a < (uintMod : Int))) :
    (if a ≠ -1 then intToUint a else b) = (if a = -1 then b else a.toNat) := by
  rcases h with rfl | ⟨h0, h1⟩
  · simp
  · have hne : a ≠ -1 := by omega
    rw [if_pos hne, if_neg hne, intToUint, Int.emod_eq_of_lt h0 h1]

lemma reshape_w [Zero α] (t : Tensor4 α) (wn xn yn zn : Int) :
    (t.reshape wn xn yn zn).w = if wn ≠ -1 then intToUint wn else t.w := rfl

lemma reshape_x [Zero α] (t : Tensor4 α) (wn xn yn zn : Int) :
    (t.reshape wn xn yn zn).x = if xn ≠ -1 then intToUint xn else t.x := rfl

lemma reshape_y [Zero α] (t : Tensor4 α) (wn xn yn zn : Int) :
    (t.reshape wn xn yn zn).y = if yn ≠ -1 then intToUint yn else t.y := rfl

lemma reshape_z [Zero α] (t : Tensor4 α) (wn xn yn zn : Int) :
    (t.reshape wn xn yn zn).z = if zn ≠ -1 then intToUint zn else t.z := rfl

lemma reshape_data [Zero α] (t : Tensor4 α) (wn xn yn zn : Int) :
    (t.reshape wn xn yn zn).data =
      vecResize t.data
        ((t.reshape wn xn yn zn).w * (t.reshape wn xn yn zn).x *
          (t.reshape wn xn yn zn).y * (t.reshape wn xn yn zn).z % uintMod) (0 : α) := rfl

/-- Claim C6 (amended): reshape with the keep-current sentinel -1 on an axis keeps
that axis's previous extent while each axis given a non-negative value takes
it; the backing store is resized to the product of the new extents computed
in 32-bit unsigned arithmetic (modulo 2 ^ 32); elements at positions present
in both the old and the new store are preserved positionally, and every
newly introduced slot holds the element type's zero. -/
theorem reshape_semantics (α : Type) [Zero α] (t : Tensor4 α) (wn xn yn zn : Int)
    (hw : wn = -1 ∨ (0 ≤ wn ∧ wn < (uintMod : Int)))
    (hx : xn = -1 ∨ (0 ≤ xn ∧ xn < (uintMod : Int)))
    (hy : yn = -1 ∨ (0 ≤ yn ∧ yn < (uintMod : Int)))
    (hz : zn = -1 ∨ (0 ≤ zn ∧ zn < (uintMod : Int))) :
    (t.reshape wn xn yn zn).w = (if wn = -1 then t.w else wn.toNat) ∧
    (t.reshape wn xn yn zn).x = (if xn = -1 then t.x else xn.toNat) ∧
    (t.reshape wn xn yn zn).y = (if yn = -1 then t.y else yn.toNat) ∧
    (t.reshape wn xn yn zn).z = (if zn = -1 then t.z else zn.toNat) ∧
    (t.reshape wn xn yn zn).data.length =
      (t.reshape wn xn yn zn).w * (t.reshape wn xn yn zn).x *
        (t.reshape wn xn yn zn).y * (t.reshape wn xn yn zn).z % uintMod ∧
    (∀ (i : Nat) (junk : α), i < t.data.length → i < (t.reshape wn xn yn zn).data.length →
      (t.reshape wn xn yn zn).data.getD i junk = t.data.getD i junk) ∧
    (∀ (i : Nat), t.data.length ≤ i → i < (t.reshape wn xn yn zn).data.length →
      (t.reshape wn xn yn zn).data.getD i (0 : α) = 0) := by
  refine ⟨?_, ?_, ?_, ?_, ?_, ?_, ?_⟩
  · rw [reshape_w]; exact reshape_axis wn t.w hw
  · rw [reshape_x]; exact reshape_axis xn t.x hx
  · rw [reshape_y]; exact reshape_axis yn t.y hy
  · rw [reshape_z]; exact reshape_axis zn t.z hz
  · rw [reshape_data, vecResize_length]
  · intro i junk h1 h2
    rw [reshape_data] at h2 ⊢
    rw [vecResize_length] at h2
    exact vecResize_getD_keep _ _ _ _ _ h1 h2
  · intro i h1 h2
    rw [reshape_data] at h2 ⊢
    rw [vecResize_length] at h2
    exact vecResize_getD_new _ _ _ _ _ h1 h2

theorem reshape_semantics_wit :
    ((Tensor4.mk 1 2 1 1 ([7, 8] : List ℤ)).reshape 5 (-1) 1 1).w = 5 ∧
    ((Tensor4.mk 1 2 1 1 ([7, 8] : List ℤ)).reshape 5 (-1) 1 1).x = 2 ∧
    ((Tensor4.mk 1 2 1 1 ([7, 8] : List ℤ)).reshape 5 (-1) 1 1).data.length = 10 ∧
    ((Tensor4.mk 1 2 1 1 ([7, 8] : List ℤ)).reshape 5 (-1) 1 1).data.getD 1 99 = 8 ∧
    ((Tensor4.mk 1 2 1 1 ([7, 8] : List ℤ)).reshape 5 (-1) 1 1).data.getD 5 0 = 0 := by
  have h := reshape_semantics ℤ (Tensor4.mk 1 2 1 1 ([7, 8] : List ℤ)) 5 (-1) 1 1
    (Or.inr (by decide)) (Or.inl rfl) (Or.inr (by decide)) (Or.inr (by decide))
  obtain ⟨h1, h2, h3, h4, h5, h6, h7⟩ := h
  exact ⟨h1.trans (by decide), h2.trans (by decide), h5.trans (by decide),
    (h6 1 99 (by decide) (by decide)).trans (by decide),
    h7 5 (by decide) (by decide)⟩

/-- Claim C6 as literally stated is false: reshaping a (1, 1, 1, 1) tensor to
extents (65536, 65536, 1, 1) computes the new element count 2 ^ 32 in uint
arithmetic, which wraps to 0, so the store is resized to 0 elements rather
than to the new product of extents. -/
theorem reshape_semantics_cex :
    ((tensor4Mk ℤ 1 1 1 1).reshape 65536 65536 (-1) (-1)).data.length ≠ 65536 * 65536 * 1 * 1 := by
  decide

/-- Claim C1: the concrete scenario layer (4 nodes, 3 inputs, depth 2), with a
wba tensor of extents (4, 6, 2, 1) holding 48 zero-initialized cells
(weight rows, bias row and activation row pages).  Each iteration of
initializeWeights invokes tensor4::operator() — the reshape overload — on
wba instead of addressing a weight cell, so after the call (whose last
iteration is wba(3, 2, 1, 0)) the tensor has extents (3, 2, 1, 0) and an
empty store: no weight cell holds a sampled value and the bias and
activation rows are not preserved, contradicting the claim. -/
theorem initializeWeights_wipes_wba :
    (tensor4Mk ℤ 4 6 2 1).data.length = 48 ∧
    ((layerMk ℤ 4 3 2 (tensor4Mk ℤ 4 6 2 1)).initializeWeights (-1) 1).wba.w = 3 ∧
    ((layerMk ℤ 4 3 2 (tensor4Mk ℤ 4 6 2 1)).initializeWeights (-1) 1).wba.z = 0 ∧
    ((layerMk ℤ 4 3 2 (tensor4Mk ℤ 4 6 2 1)).initializeWeights (-1) 1).wba.data = [] := by
  exact ⟨by decide, by decide, by decide, by decide⟩

lemma foldl_outputs_eq (g : Layer α → Nat → Layer α)
    (h : ∀ a n, (g a n).outputs = a.outputs) :
    ∀ (xs : List Nat) (a : Layer α), (xs.foldl g a).outputs = a.outputs := by
  intro xs
  induction xs with
  | nil => intro a; rfl
  | cons hd tl ih => intro a; rw [List.foldl_cons, ih, h]

/-- Claim C8: for every layer constructed with sizes (nodes, inputs, depth), the
outputs sequence is the all-zero list of length nodes after construction,
and initializeWeights(min, max) never assigns through outputs, so outputs
is unchanged by it — in particular still all-zero when it is called before
any other mutation of outputs. -/
theorem layer_outputs_frame (α : Type) [Zero α] (nodes inputs depth : Nat)
    (wba0 : Tensor4 α) (mn mx : α) :
    (layerMk α nodes inputs depth wba0).outputs = List.replicate nodes 0 ∧
    (∀ l : Layer α, (l.initializeWeights mn mx).outputs = l.outputs) ∧
    ((layerMk α nodes inputs depth wba0).initializeWeights mn mx).outputs =
      List.replicate nodes 0 := by
  have hpres : ∀ l : Layer α, (l.initializeWeights mn mx).outputs = l.outputs := by
    intro l
    rw [Layer.initializeWeights]
    apply foldl_outputs_eq
    intro a d
    apply foldl_outputs_eq
    intro b i
    apply foldl_outputs_eq
    intro c n
    rfl
  refine ⟨?_, hpres, ?_⟩
  · simp [layerMk]
  · rw [hpres]
    simp [layerMk]

end CuRNN
